import Mathlib

/-!
Verification of the Fluspirilenic IMAP reconciliation tool
(`src/fluspirilenic.py`) against its natural-language specification.

The development shallow-embeds the Python source into Lean:

* pure string helpers (`_get_header`, the splitting done by
  `_get_message_ids`, `_get_mailboxes`) are translated directly,
  including the exact `str.split(sep, maxsplit)` semantics of Python;
* the flag-reconciliation loop of `sync_read` (lines 82-154) is embedded
  as a state-passing function over an explicit destination-account state.
  The IMAP client itself is out of scope for the spec, so a selected
  mailbox is a list of messages and `store`/`select` act on that state;
* Python 2 dictionaries do not guarantee any iteration order, so every
  place the source iterates a dict (`dst_msgids_all.iteritems()`,
  `ref_msgids.iteritems()`, `from_msgids_all.iteritems()`) is embedded
  by passing the iteration sequence explicitly as a list parameter;
  theorems either hold for all such sequences or exhibit the sequences
  on which the source-level behaviour differs from the spec;
* the exception structure of `sync_read` (nested try/except/finally,
  lines 91-154, together with `_close` and `_disconnect`) is embedded as
  an event-trace semantics in which each protocol operation may fail,
  the failure points being explicit boolean parameters.
-/

/-! ## Python string primitives -/

/-- Python `str.split(sep, maxsplit)` on a list of characters: split at the
first `maxsplit` occurrences of `sep`; the remainder (which may still
contain `sep`) becomes the final chunk.  `"a:b:c".split(":", 1) = ["a", "b:c"]`. -/
def pySplitList (sep : Char) : Nat → List Char → List (List Char)
  | _, [] => [[]]
  | 0, cs => [cs]
  | n + 1, c :: cs =>
    if c = sep then [] :: pySplitList sep n cs
    else
      match pySplitList sep (n + 1) cs with
      | [] => [c :: cs]
      | p :: ps => (c :: p) :: ps

/-- Python `str.split(sep, maxsplit)` on strings. -/
def pySplit (sep : Char) (maxsplit : Nat) (s : String) : List String :=
  (pySplitList sep maxsplit s.toList).map String.mk

/-- Python `str.split(sep)` without a maxsplit bound: split at every
occurrence of `sep`. -/
def pySplitAll (sep : Char) : List Char → List (List Char)
  | [] => [[]]
  | c :: cs =>
    if c = sep then [] :: pySplitAll sep cs
    else
      match pySplitAll sep cs with
      | [] => [c :: cs]
      | p :: ps => (c :: p) :: ps

/-- Python `str.split(sep)` on strings. -/
def pySplitAllStr (sep : Char) (s : String) : List String :=
  (pySplitAll sep s.toList).map String.mk

/-- Python `str.lower()` (ASCII lowering, which is all the source compares). -/
def pyLower (s : String) : String :=
  String.mk (s.toList.map Char.toLower)

/-- Python `str.strip()` on a list of characters: drop whitespace from
both ends. -/
def pyStripList (l : List Char) : List Char :=
  (((l.dropWhile Char.isWhitespace).reverse.dropWhile Char.isWhitespace).reverse)

/-- Python `str.strip()`. -/
def pyStrip (s : String) : String :=
  String.mk (pyStripList s.toList)

/-- `_get_header` (fluspirilenic.py lines 322-324):
`values = header.split(':', 2); return (values[0].strip(), values[1].strip())`.
The Python raises `IndexError` when the header contains no colon
(`values` then has a single element); that failure is `none` here. -/
def get_header (header : String) : Option (String × String) :=
  match pySplit ':' 2 header with
  | v0 :: v1 :: _ => some (pyStrip v0, pyStrip v1)
  | _ => none

/-- The header extraction as the specification describes it (spec section 4.1
and claim C9): split on the FIRST colon only, the value being the whole
trimmed remainder of the line.  Written from the words of the spec, for
comparison with `get_header`, which is written from the source. -/
def get_header_asSpecified (header : String) : Option (String × String) :=
  match pySplit ':' 1 header with
  | v0 :: v1 :: _ => some (pyStrip v0, pyStrip v1)
  | _ => none

/-! ## Python-2 dictionaries as association lists

Lookup and update of an existing key keep the position of the key;
insertion of a fresh key appends.  Iteration order of a real Python 2
dict is unspecified, so every theorem that depends on iteration order
takes the iterated sequence as an explicit parameter. -/

/-- `d[k] = v` on a Python dict (last write wins, position of an
existing key preserved). -/
def dictInsert {β : Type} (d : List (String × β)) (k : String) (v : β) :
    List (String × β) :=
  if d.any (fun p => p.1 == k) then
    d.map (fun p => if p.1 == k then (k, v) else p)
  else d ++ [(k, v)]

/-- `d.get(k)` on a Python dict. -/
def dictGet {β : Type} (d : List (String × β)) (k : String) : Option β :=
  (d.find? (fun p => p.1 == k)).map Prod.snd

/-! ## The Message-ID index builder (`_get_message_ids`, lines 290-300) -/

/-- One element of the `data` list returned by the batched
`fetch("1:*", "(BODY.PEEK[HEADER.FIELDS (Message-Id)])")`: either a
continuation/closing fragment (a 1-element tuple in Python, skipped by
the builder) or a proper `(descriptor, header-block)` pair. -/
inductive FetchEntry
  | frag (s : String)
  | pair (descr : String) (headerBlock : String)
deriving DecidableEq

/-- The loop body of `_get_message_ids`: for each proper entry,
`uid = d[0].split(' ', 2)[0]`, `hd, msgid = _get_header(d[1])`,
`msgids[msgid] = uid`.  A header block that `_get_header` cannot parse
makes the whole builder fail (the uncaught Python `IndexError`). -/
def get_message_ids_loop (acc : List (String × String)) :
    List FetchEntry → Option (List (String × String))
  | [] => some acc
  | FetchEntry.frag _ :: rest => get_message_ids_loop acc rest
  | FetchEntry.pair d h :: rest =>
    match get_header h with
    | none => none
    | some (_, msgid) =>
      get_message_ids_loop (dictInsert acc msgid ((pySplit ' ' 2 d).headD "")) rest

/-- `_get_message_ids` (lines 290-300): build the Message-ID index from the
raw batched-fetch result, skipping 1-element fragments. -/
def get_message_ids (data : List FetchEntry) : Option (List (String × String)) :=
  get_message_ids_loop [] data

/-! ## The mailbox pair resolver (`_get_mailboxes`, lines 271-287) -/

/-- A Python value that is either a string or a list of strings: the second
component of a mailbox pair is the string `'INBOX'` in the default branch
(line 273) but a list of strings in the mapping-file branch (lines 283/285). -/
inductive PyStrOrList
  | str (s : String)
  | list (l : List String)
deriving DecidableEq

/-- `_get_mailboxes` (lines 271-287).  `none` models the absence of a
`--map` argument; `some lines` models the lines read from the mapping file.
Blank lines are skipped; fields are comma-split and whitespace-trimmed; a
line with more than one field maps `mapping[0]` to the list `mapping[1:]`,
a one-field line maps the mailbox to itself (as a one-element list).
The default branch returns `('INBOX', 'INBOX')` with a STRING second
component, exactly as line 273 of the source does. -/
def get_mailboxes (mapLines : Option (List String)) : List (String × PyStrOrList) :=
  match mapLines with
  | none => [("INBOX", PyStrOrList.str "INBOX")]
  | some lines =>
    lines.filterMap (fun line =>
      if pyStrip line = "" then none
      else
        let mapping := (pySplitAllStr ',' line).map pyStrip
        if mapping.length > 1 then
          some (mapping.headD "", PyStrOrList.list mapping.tail)
        else
          some (mapping.headD "", PyStrOrList.list [mapping.headD ""]))

/-- Python iteration `for m in mbox[1]` (sync_read line 98): iterating a
string yields its characters one by one (each a 1-character string);
iterating a list yields its elements. -/
def iterDest : PyStrOrList → List String
  | PyStrOrList.str s => s.toList.map (fun c => String.mk [c])
  | PyStrOrList.list l => l

/-! ## The flag reconciliation engine (`sync_read`, lines 78-154)

The destination account state is the per-mailbox message lists together
with the session-wide selected mailbox.  A destination message carries
its store-local identifier, its Message-ID value, and its seen flag. -/

/-- A destination message: store-local uid, Message-ID value, seen flag. -/
structure Msg where
  uid : Nat
  msgid : String
  seen : Bool
deriving DecidableEq

/-- A source message as the engine sees it: store-local uid, the raw
`Message-ID` header block returned by the fetch of line 115, and its
seen flag (which decides whether the search of line 106 returns it). -/
structure SrcMsg where
  uid : Nat
  header : String
  seen : Bool
deriving DecidableEq

/-- Destination account session state: named mailboxes and the selected one. -/
structure DestState where
  boxes : List (String × List Msg)
  selected : Option String
deriving DecidableEq

/-- `dst.select(m)` (lines 100/128): mailbox selection is session-wide state. -/
def dstSelect (st : DestState) (m : String) : DestState :=
  { st with selected := some m }

/-- The effect of `store(uid, '+FLAGS.SILENT'/'-FLAGS.SILENT', '\\Seen')` on
one mailbox: every message with that uid gets its seen flag set to `b`. -/
def setSeenBox (msgs : List Msg) (uid : Nat) (b : Bool) : List Msg :=
  msgs.map (fun mg => if mg.uid = uid then { mg with seen := b } else mg)

/-- `dst.store(dstnum, store_action, '\\Seen')` (line 139): the store applies
to the currently selected mailbox; `b = true` is `+FLAGS.SILENT` (mode
`read`), `b = false` is `-FLAGS.SILENT` (mode `unread`). -/
def dstStore (st : DestState) (uid : Nat) (b : Bool) : DestState :=
  { st with
    boxes := st.boxes.map (fun p =>
      if some p.1 = st.selected then (p.1, setSeenBox p.2 uid b) else p) }

/-- The sync mode of the `read` subcommand (lines 82-89). -/
inductive Mode
  | read
  | unread
deriving DecidableEq

/-- Lines 82-87: mode `read` searches `SEEN` and stores `+FLAGS.SILENT`;
mode `unread` searches `UNSEEN` and stores `-FLAGS.SILENT`.  Both facts
are captured by one boolean polarity. -/
def polarity : Mode → Bool
  | Mode.read => true
  | Mode.unread => false

/-- The relevant command-line arguments of `sync_read`: `--mode`
(default `unread`), `--limit` (default `-1`), `--min_uid` (default `-1`). -/
structure Config where
  mode : Mode
  limit : Int
  min_uid : Int
deriving DecidableEq

/-- `src.search(None, search_flag)` (line 106) restricted to one source
mailbox: the messages whose seen flag matches the mode, in mailbox order. -/
def searchMsgs (mode : Mode) (msgs : List SrcMsg) : List SrcMsg :=
  msgs.filter (fun s => s.seen == polarity mode)

/-- First destination index whose dict contains the key: the for/else of
lines 125-136 of `sync_read` (and likewise lines 177-188 of `move_msgs`).
`items` is the sequence produced by iterating the Python dict of indexes;
the first entry containing the key wins. -/
def resolve (items : List (String × List (String × Nat))) (v : String) :
    Option (String × Nat) :=
  match items with
  | [] => none
  | (m, idx) :: rest =>
    match dictGet idx v with
    | some u => some (m, u)
    | none => resolve rest v

/-- Classification of one source message by the body of the loop of
lines 111-136:
* lines 112-113: below the `--min_uid` floor, `continue`;
* line 116: `_get_header` on the fetched block; an unparsable block
  raises (caught by the per-pair handler);
* lines 117-118: a header name that is not case-insensitively
  `Message-ID` raises (caught by the per-pair handler);
* lines 119-123: an empty value is logged and skipped;
* lines 125-136: the for/else over the destination indexes; no index
  containing the key means logged-and-skipped, otherwise the message is
  matched at the first containing entry. -/
inductive StepRes
  | skip (e : Bool)
  | raiseStep
  | storeAt (m : String) (u : Nat)
deriving DecidableEq

/-- Per-message classification; `items` is the iteration sequence of
`dst_msgids_all`.  `StepRes.skip true` is a skip below the uid floor,
`StepRes.skip false` a Malformed/Unmatched skip. -/
def classify (cfg : Config) (items : List (String × List (String × Nat)))
    (s : SrcMsg) : StepRes :=
  if cfg.min_uid > 0 ∧ (s.uid : Int) < cfg.min_uid then StepRes.skip true
  else
    match get_header s.header with
    | none => StepRes.raiseStep
    | some (hd, val) =>
      if pyLower hd ≠ "message-id" then StepRes.raiseStep
      else if val = "" then StepRes.skip false
      else
        match resolve items val with
        | none => StepRes.skip false
        | some (m, u) => StepRes.storeAt m u

/-- Observable events of one pair of the reconciliation loop. -/
inductive Ev
  | selectDst (m : String)
  | stored (m : String) (uid : Nat) (plus : Bool)
  | skippedMin (uid : Nat)
  | malformed (uid : Nat)
  | unmatched (uid : Nat)
  | limitHit
  | raisedInLoop
deriving DecidableEq

/-- Result of the message loop of one mailbox pair: final destination
state, event list, number of source messages visited (loop iterations
entered), and whether an exception escaped to the per-pair handler. -/
structure LoopRes where
  dst : DestState
  events : List Ev
  visited : Nat
  raised : Bool
deriving DecidableEq

/-- Event recorded for a `StepRes.skip`: uid-floor skip, Malformed
(empty value), or Unmatched, matching the three `continue` sites. -/
def skipEvent (cfg : Config) (_items : List (String × List (String × Nat)))
    (s : SrcMsg) : Ev :=
  if cfg.min_uid > 0 ∧ (s.uid : Int) < cfg.min_uid then Ev.skippedMin s.uid
  else
    match get_header s.header with
    | some (_, val) => if val = "" then Ev.malformed s.uid else Ev.unmatched s.uid
    | none => Ev.raisedInLoop

/-- The message loop of `sync_read` (lines 111-146) over the enumerated
search result (`enumerate(msgnums)`).  On a match the destination mailbox
is selected and the store applied (lines 128/139); afterwards the limit
check `if args.limit > 0 and i >= args.limit: break` of line 141 runs —
note it is reached only on the matched path, the `continue` sites skip it. -/
def syncLoop (cfg : Config) (items : List (String × List (String × Nat))) :
    DestState → List (Nat × SrcMsg) → LoopRes
  | st, [] => ⟨st, [], 0, false⟩
  | st, (i, s) :: rest =>
    match classify cfg items s with
    | StepRes.skip _ =>
      let r := syncLoop cfg items st rest
      ⟨r.dst, skipEvent cfg items s :: r.events, r.visited + 1, r.raised⟩
    | StepRes.raiseStep => ⟨st, [Ev.raisedInLoop], 1, true⟩
    | StepRes.storeAt m u =>
      let st1 := dstStore (dstSelect st m) u (polarity cfg.mode)
      if cfg.limit > 0 ∧ (i : Int) ≥ cfg.limit then
        ⟨st1, [Ev.selectDst m, Ev.stored m u (polarity cfg.mode), Ev.limitHit], 1, false⟩
      else
        let r := syncLoop cfg items st1 rest
        ⟨r.dst, Ev.selectDst m :: Ev.stored m u (polarity cfg.mode) :: r.events,
          r.visited + 1, r.raised⟩

/-- One mailbox pair of `sync_read`: search the source by the mode flag
(line 106) and run the message loop over the enumerated result. -/
def syncPair (cfg : Config) (items : List (String × List (String × Nat)))
    (dst0 : DestState) (srcMsgs : List SrcMsg) : LoopRes :=
  syncLoop cfg items dst0 (searchMsgs cfg.mode srcMsgs).enum

/-! ## Invariants of the engine state -/

/-- Every message with uid `u` in every destination mailbox named `m`
carries seen flag `b`. -/
def allSeenAt (st : DestState) (m : String) (u : Nat) (b : Bool) : Prop :=
  ∀ p ∈ st.boxes, p.1 = m → ∀ mg ∈ p.2, mg.uid = u → mg.seen = b

lemma dstStore_boxes (st : DestState) (uid : Nat) (b : Bool) :
    (dstStore st uid b).boxes = st.boxes.map (fun p =>
      if some p.1 = st.selected then (p.1, setSeenBox p.2 uid b) else p) := rfl

lemma dstSelect_selected (st : DestState) (m : String) :
    (dstSelect st m).selected = some m := rfl

lemma dstSelect_boxes (st : DestState) (m : String) :
    (dstSelect st m).boxes = st.boxes := rfl

lemma setSeenBox_mem_cases {msgs : List Msg} {u : Nat} {b : Bool} {mg : Msg}
    (h : mg ∈ setSeenBox msgs u b) :
    (∃ q, q ∈ msgs ∧ q.uid = u ∧ mg = { q with seen := b }) ∨
      (mg ∈ msgs ∧ mg.uid ≠ u) := by
  rcases List.mem_map.1 h with ⟨q, hq, hqe⟩
  by_cases hu : q.uid = u
  · rw [if_pos hu] at hqe
    exact Or.inl ⟨q, hq, hu, hqe.symm⟩
  · rw [if_neg hu] at hqe
    exact Or.inr ⟨hqe ▸ hq, hqe ▸ hu⟩

/-- A store at `(m', u')` with polarity `b'` preserves `allSeenAt m u b`
whenever it has the same polarity or hits a different mailbox or uid. -/
lemma allSeenAt_store_preserve {st : DestState} {m m' : String} {u u' : Nat}
    {b b' : Bool} (H : allSeenAt st m u b)
    (side : b' = b ∨ m' ≠ m ∨ u' ≠ u) :
    allSeenAt (dstStore (dstSelect st m') u' b') m u b := by
  intro p hp hpm mg hmg hmu
  rw [dstStore_boxes, dstSelect_selected, dstSelect_boxes] at hp
  rcases List.mem_map.1 hp with ⟨w, hw, hwe⟩
  by_cases hsel : some w.1 = some m'
  · rw [if_pos hsel] at hwe
    have hw1 : w.1 = m' := Option.some.inj hsel
    subst hwe
    have hw1m : w.1 = m := hpm
    have hmg2 : mg ∈ setSeenBox w.2 u' b' := hmg
    rcases setSeenBox_mem_cases hmg2 with ⟨q, hq, hqu, hqe⟩ | ⟨hmem, hne⟩
    · have huu : u' = u := by
        rw [hqe] at hmu
        simp only [Msg.uid] at hmu
        rw [← hqu]; exact hmu
      rcases side with hb | hm | hu2
      · rw [hqe]; simpa using hb
      · exact absurd (hw1 ▸ hw1m : m' = m) hm
      · exact absurd huu hu2
    · exact H w hw hw1m mg hmem hmu
  · rw [if_neg hsel] at hwe
    subst hwe
    exact H w hw hpm mg hmg hmu

/-- After `select m; store u b`, every message with uid `u` in every
mailbox named `m` carries seen flag `b` — regardless of its previous state. -/
lemma allSeenAt_store_establish (st : DestState) (m : String) (u : Nat) (b : Bool) :
    allSeenAt (dstStore (dstSelect st m) u b) m u b := by
  intro p hp hpm mg hmg hmu
  rw [dstStore_boxes, dstSelect_selected, dstSelect_boxes] at hp
  rcases List.mem_map.1 hp with ⟨w, hw, hwe⟩
  by_cases hsel : some w.1 = some m
  · rw [if_pos hsel] at hwe
    subst hwe
    have hmg2 : mg ∈ setSeenBox w.2 u b := hmg
    rcases setSeenBox_mem_cases hmg2 with ⟨q, _, _, hqe⟩ | ⟨_, hne⟩
    · rw [hqe]
    · exact absurd hmu hne
  · rw [if_neg hsel] at hwe
    subst hwe
    exact absurd (congrArg some hpm) hsel

/-! ## Equations of `classify` and `syncLoop` -/

/-- The fetched header block parses and the header name is
case-insensitively `Message-ID`: the situation in which lines 116-118 of
the source do not raise. -/
def wfHeader (h : String) : Prop :=
  ∃ nm v, get_header h = some (nm, v) ∧ pyLower nm = "message-id"

lemma classify_min_skip {cfg : Config} {items} {s : SrcMsg}
    (hmin : cfg.min_uid > 0 ∧ (s.uid : Int) < cfg.min_uid) :
    classify cfg items s = StepRes.skip true := by
  unfold classify
  rw [if_pos hmin]

lemma classify_store {cfg : Config} {items} {s : SrcMsg} {nm v : String}
    {m : String} {u : Nat}
    (hmin : ¬(cfg.min_uid > 0 ∧ (s.uid : Int) < cfg.min_uid))
    (hp : get_header s.header = some (nm, v)) (hlow : pyLower nm = "message-id")
    (hv : v ≠ "") (hr : resolve items v = some (m, u)) :
    classify cfg items s = StepRes.storeAt m u := by
  unfold classify
  rw [if_neg hmin, hp]
  simp [hlow, hv, hr]

lemma classify_store_elim {cfg : Config} {items} {s : SrcMsg} {m : String}
    {u : Nat} (h : classify cfg items s = StepRes.storeAt m u) :
    ∃ nm v, get_header s.header = some (nm, v) ∧ pyLower nm = "message-id"
      ∧ v ≠ "" ∧ resolve items v = some (m, u) := by
  unfold classify at h
  split at h
  · cases h
  · split at h
    · cases h
    · rename_i nm v hgh
      split at h
      · cases h
      · rename_i hlow
        split at h
        · cases h
        · rename_i hv
          split at h
          · cases h
          · rename_i m0 u0 hr
            injection h with h1 h2
            subst h1; subst h2
            exact ⟨nm, v, hgh, not_not.1 hlow, hv, hr⟩

lemma classify_not_raise {cfg : Config} {items} {s : SrcMsg}
    (hwf : wfHeader s.header) :
    classify cfg items s ≠ StepRes.raiseStep := by
  rcases hwf with ⟨nm, v, hp, hlow⟩
  unfold classify
  by_cases hmin : cfg.min_uid > 0 ∧ (s.uid : Int) < cfg.min_uid
  · rw [if_pos hmin]; simp
  · rw [if_neg hmin, hp]
    simp only [hlow, ne_eq, not_true_eq_false, if_false]
    by_cases hv : v = ""
    · simp [hv]
    · simp only [hv, if_neg hv]
      cases resolve items v with
      | none => simp
      | some mu => simp

lemma syncLoop_nil (cfg : Config) (items) (st : DestState) :
    syncLoop cfg items st [] = ⟨st, [], 0, false⟩ := rfl

lemma syncLoop_cons_skip {cfg : Config} {items} {s : SrcMsg} {e : Bool}
    (hc : classify cfg items s = StepRes.skip e)
    (st : DestState) (i : Nat) (rest : List (Nat × SrcMsg)) :
    syncLoop cfg items st ((i, s) :: rest) =
      ⟨(syncLoop cfg items st rest).dst,
       skipEvent cfg items s :: (syncLoop cfg items st rest).events,
       (syncLoop cfg items st rest).visited + 1,
       (syncLoop cfg items st rest).raised⟩ := by
  simp only [syncLoop]
  rw [hc]

lemma syncLoop_cons_raise {cfg : Config} {items} {s : SrcMsg}
    (hc : classify cfg items s = StepRes.raiseStep)
    (st : DestState) (i : Nat) (rest : List (Nat × SrcMsg)) :
    syncLoop cfg items st ((i, s) :: rest) = ⟨st, [Ev.raisedInLoop], 1, true⟩ := by
  simp only [syncLoop]
  rw [hc]

lemma syncLoop_cons_store_break {cfg : Config} {items} {s : SrcMsg}
    {m : String} {u : Nat} (hc : classify cfg items s = StepRes.storeAt m u)
    {i : Nat} (hlim : cfg.limit > 0 ∧ (i : Int) ≥ cfg.limit)
    (st : DestState) (rest : List (Nat × SrcMsg)) :
    syncLoop cfg items st ((i, s) :: rest) =
      ⟨dstStore (dstSelect st m) u (polarity cfg.mode),
       [Ev.selectDst m, Ev.stored m u (polarity cfg.mode), Ev.limitHit],
       1, false⟩ := by
  simp only [syncLoop]
  rw [hc]
  simp only [if_pos hlim]

lemma syncLoop_cons_store_cont {cfg : Config} {items} {s : SrcMsg}
    {m : String} {u : Nat} (hc : classify cfg items s = StepRes.storeAt m u)
    {i : Nat} (hlim : ¬(cfg.limit > 0 ∧ (i : Int) ≥ cfg.limit))
    (st : DestState) (rest : List (Nat × SrcMsg)) :
    syncLoop cfg items st ((i, s) :: rest) =
      ⟨(syncLoop cfg items (dstStore (dstSelect st m) u (polarity cfg.mode)) rest).dst,
       Ev.selectDst m :: Ev.stored m u (polarity cfg.mode) ::
         (syncLoop cfg items (dstStore (dstSelect st m) u (polarity cfg.mode)) rest).events,
       (syncLoop cfg items (dstStore (dstSelect st m) u (polarity cfg.mode)) rest).visited + 1,
       (syncLoop cfg items (dstStore (dstSelect st m) u (polarity cfg.mode)) rest).raised⟩ := by
  simp only [syncLoop]
  rw [hc]
  simp only [if_neg hlim]

/-! ## Loop invariants -/

lemma mem_enumFrom_of_mem {α : Type} {a : α} :
    ∀ (l : List α) (n : Nat), a ∈ l → ∃ i, (i, a) ∈ l.enumFrom n := by
  intro l
  induction l with
  | nil => intro n h; cases h
  | cons x xs ih =>
    intro n h
    rcases List.mem_cons.1 h with rfl | hx
    · exact ⟨n, List.mem_cons_self _ _⟩
    · rcases ih (n + 1) hx with ⟨i, hi⟩
      exact ⟨i, List.mem_cons_of_mem _ hi⟩

lemma mem_enum_of_mem {α : Type} {a : α} (l : List α) (h : a ∈ l) :
    ∃ i, (i, a) ∈ l.enum :=
  mem_enumFrom_of_mem l 0 h

lemma snd_mem_of_mem_enumFrom {α : Type} {x : Nat × α} :
    ∀ (l : List α) (n : Nat), x ∈ l.enumFrom n → x.2 ∈ l := by
  intro l
  induction l with
  | nil => intro n h; cases h
  | cons y ys ih =>
    intro n h
    rcases List.mem_cons.1 h with rfl | hx
    · exact List.mem_cons_self _ _
    · exact List.mem_cons_of_mem _ (ih (n + 1) hx)

lemma snd_mem_of_mem_enum {α : Type} {x : Nat × α} (l : List α)
    (h : x ∈ l.enum) : x.2 ∈ l :=
  snd_mem_of_mem_enumFrom l 0 h

/-- Every store issued by `syncLoop` has the polarity of the run mode, so
`allSeenAt m u b` is preserved as long as each visited message that
resolves to `(m, u)` is stored with polarity `b` — in particular it is
always preserved when `b` is the polarity of the mode, and preserved
when no visited message resolves to `(m, u)` at all. -/
lemma syncLoop_preserve {cfg : Config} {items} {m : String} {u : Nat} {b : Bool} :
    ∀ (list : List (Nat × SrcMsg)) (st : DestState),
      allSeenAt st m u b →
      (∀ x ∈ list, classify cfg items x.2 = StepRes.storeAt m u →
        polarity cfg.mode = b) →
      allSeenAt (syncLoop cfg items st list).dst m u b := by
  intro list
  induction list with
  | nil =>
    intro st H _
    rw [syncLoop_nil]
    exact H
  | cons x rest ih =>
    intro st H Hmode
    obtain ⟨i, s⟩ := x
    have hst1 : ∀ m0 u0, classify cfg items s = StepRes.storeAt m0 u0 →
        allSeenAt (dstStore (dstSelect st m0) u0 (polarity cfg.mode)) m u b := by
      intro m0 u0 hc
      by_cases hmu : m0 = m ∧ u0 = u
      · obtain ⟨h1, h2⟩ := hmu
        subst h1; subst h2
        have hb : polarity cfg.mode = b :=
          Hmode (i, s) (List.mem_cons_self _ _) hc
        exact allSeenAt_store_preserve H (Or.inl hb)
      · rcases not_and_or.1 hmu with h1 | h2
        · exact allSeenAt_store_preserve H (Or.inr (Or.inl h1))
        · exact allSeenAt_store_preserve H (Or.inr (Or.inr h2))
    cases hc : classify cfg items s with
    | skip e =>
      rw [syncLoop_cons_skip hc]
      exact ih st H (fun y hy => Hmode y (List.mem_cons_of_mem _ hy))
    | raiseStep =>
      rw [syncLoop_cons_raise hc]
      exact H
    | storeAt m0 u0 =>
      by_cases hlim : cfg.limit > 0 ∧ (i : Int) ≥ cfg.limit
      · rw [syncLoop_cons_store_break hc hlim]
        exact hst1 m0 u0 hc
      · rw [syncLoop_cons_store_cont hc hlim]
        exact ih _ (hst1 m0 u0 hc)
          (fun y hy => Hmode y (List.mem_cons_of_mem _ hy))

/-- When no message of the pair raises, the limit is off, and some visited
message resolves to `(m, u)`, the run leaves every `(m, u)` destination
message with the seen flag equal to the polarity of the mode — regardless
of the initial flag state. -/
lemma syncLoop_establish {cfg : Config} {items} {m : String} {u : Nat}
    (Hlim : cfg.limit ≤ 0) :
    ∀ (list : List (Nat × SrcMsg)) (st : DestState),
      (∀ x ∈ list, classify cfg items x.2 ≠ StepRes.raiseStep) →
      (∃ x ∈ list, classify cfg items x.2 = StepRes.storeAt m u) →
      allSeenAt (syncLoop cfg items st list).dst m u (polarity cfg.mode) := by
  intro list
  induction list with
  | nil =>
    intro st _ hex
    rcases hex with ⟨x, hx, _⟩
    cases hx
  | cons x rest ih =>
    intro st Hnr Hex
    obtain ⟨i, s⟩ := x
    have hlim2 : ¬(cfg.limit > 0 ∧ (i : Int) ≥ cfg.limit) := by
      intro hcon
      exact absurd Hlim (not_le.2 hcon.1)
    cases hc : classify cfg items s with
    | skip e =>
      rw [syncLoop_cons_skip hc]
      apply ih
      · exact fun y hy => Hnr y (List.mem_cons_of_mem _ hy)
      · rcases Hex with ⟨y, hy, hys⟩
        rcases List.mem_cons.1 hy with rfl | hmem
        · have hys2 : classify cfg items s = StepRes.storeAt m u := hys
          rw [hc] at hys2
          cases hys2
        · exact ⟨y, hmem, hys⟩
    | raiseStep =>
      exact absurd hc (Hnr (i, s) (List.mem_cons_self _ _))
    | storeAt m0 u0 =>
      rw [syncLoop_cons_store_cont hc hlim2]
      by_cases heq : m0 = m ∧ u0 = u
      · obtain ⟨h1, h2⟩ := heq
        rw [h1, h2]
        exact syncLoop_preserve rest _
          (allSeenAt_store_establish st m u (polarity cfg.mode))
          (fun y _ _ => rfl)
      · apply ih
        · exact fun y hy => Hnr y (List.mem_cons_of_mem _ hy)
        · rcases Hex with ⟨y, hy, hys⟩
          rcases List.mem_cons.1 hy with rfl | hmem
          · have hys2 : classify cfg items s = StepRes.storeAt m u := hys
            rw [hc] at hys2
            injection hys2 with ha hb
            exact absurd ⟨ha, hb⟩ heq
          · exact ⟨y, hmem, hys⟩

/-! ## Idempotence of the seen-flag store -/

lemma setSeenBox_idem (l : List Msg) (u : Nat) (b : Bool) :
    setSeenBox (setSeenBox l u b) u b = setSeenBox l u b := by
  unfold setSeenBox
  rw [List.map_map]
  apply List.map_congr_left
  intro a _
  by_cases h : a.uid = u
  · simp [Function.comp, h]
  · simp [Function.comp, h]

/-- Storing the same seen-flag state twice is the same as storing it
once: the `'\\Seen'` store of line 139 is idempotent. -/
lemma dstStore_idem (st : DestState) (u : Nat) (b : Bool) :
    dstStore (dstStore st u b) u b = dstStore st u b := by
  unfold dstStore
  simp only [List.map_map]
  congr 1
  apply List.map_congr_left
  intro p _
  by_cases h : some p.1 = st.selected
  · simp [Function.comp, h, setSeenBox_idem]
  · simp [Function.comp, h]

/-! ## Claim C1 -/

/-- Claim C1: for every source message visited by the reconciliation run
(i.e. in the search result of the mode) whose Message-ID value is
non-empty and present in some destination index, mode `read` leaves the
matched destination message carrying the seen flag and mode `unread`
leaves it not carrying it (the conclusion `polarity cfg.mode` is `true`
for `read` and `false` for `unread`), regardless of the destination
message's initial flag state; and the seen-flag store is idempotent.
Hypotheses: the limit and uid floor are at their defaults (≤ 0, i.e.
disabled) and every visited header block is well formed, so that the run
reaches the message. -/
theorem C1_flag_reconciliation_sets_seen
    (cfg : Config) (items : List (String × List (String × Nat)))
    (dst0 : DestState) (srcMsgs : List SrcMsg)
    (Hlim : cfg.limit ≤ 0) (Hmin : cfg.min_uid ≤ 0)
    (Hwf : ∀ t ∈ searchMsgs cfg.mode srcMsgs, wfHeader t.header)
    (s : SrcMsg) (Hs : s ∈ searchMsgs cfg.mode srcMsgs)
    (nm v : String) (Hp : get_header s.header = some (nm, v)) (Hv : v ≠ "")
    (m : String) (u : Nat) (Hr : resolve items v = some (m, u)) :
    allSeenAt (syncPair cfg items dst0 srcMsgs).dst m u (polarity cfg.mode)
    ∧ ∀ (st : DestState) (u' : Nat) (b : Bool),
        dstStore (dstStore st u' b) u' b = dstStore st u' b := by
  constructor
  · unfold syncPair
    apply syncLoop_establish Hlim
    · intro x hx
      exact classify_not_raise (Hwf x.2 (snd_mem_of_mem_enum _ hx))
    · rcases mem_enum_of_mem _ Hs with ⟨i, hi⟩
      refine ⟨(i, s), hi, ?_⟩
      have hminI : ¬(cfg.min_uid > 0 ∧ (s.uid : Int) < cfg.min_uid) := by
        intro hcon
        exact absurd Hmin (not_le.2 hcon.1)
      have hlow : pyLower nm = "message-id" := by
        rcases Hwf s Hs with ⟨nm2, v2, hp2, hl2⟩
        rw [Hp] at hp2
        injection hp2 with h3
        injection h3 with h4 h5
        rw [h4]
        exact hl2
      exact classify_store hminI Hp hlow Hv Hr
  · intro st u' b
    exact dstStore_idem st u' b

/-- Witness for C1: a concrete `read` run on a one-message source whose
Message-ID `<a>` matches uid 10 of the destination INBOX (initially
unseen there); the run leaves it seen. -/
theorem C1_flag_reconciliation_sets_seen_witness :
    allSeenAt (syncPair ⟨Mode.read, -1, -1⟩ [("INBOX", [("<a>", 10)])]
        ⟨[("INBOX", [⟨10, "<a>", false⟩])], none⟩
        [⟨1, "Message-ID: <a>", true⟩]).dst "INBOX" 10 (polarity Mode.read)
    ∧ ∀ (st : DestState) (u' : Nat) (b : Bool),
        dstStore (dstStore st u' b) u' b = dstStore st u' b := by
  exact C1_flag_reconciliation_sets_seen ⟨Mode.read, -1, -1⟩
    [("INBOX", [("<a>", 10)])]
    ⟨[("INBOX", [⟨10, "<a>", false⟩])], none⟩
    [⟨1, "Message-ID: <a>", true⟩]
    (by decide) (by decide)
    (by
      have hsearch : searchMsgs Mode.read [(⟨1, "Message-ID: <a>", true⟩ : SrcMsg)] =
          [⟨1, "Message-ID: <a>", true⟩] := by decide
      intro t ht
      rw [hsearch] at ht
      rw [List.mem_singleton.1 ht]
      exact ⟨"Message-ID", "<a>", by decide, by decide⟩)
    ⟨1, "Message-ID: <a>", true⟩ (by decide)
    "Message-ID" "<a>" (by decide) (by decide)
    "INBOX" 10 (by decide)

/-! ## Claim C3 -/

/-- Claim C3 (code bug): with `--limit 1` and a source search result of two
seen, matched messages, the engine visits BOTH messages and stores both
before stopping, because line 141 compares the 0-based `enumerate` index
with `i >= args.limit` only after the store has been issued.  The claim
(and the help text of `--limit`) says exactly one message would be
visited.  The run: message index 0 is stored (0 >= 1 fails), message
index 1 is stored and only then the break triggers — 2 visited, 2 stored. -/
theorem C3_limit_off_by_one :
    (syncPair ⟨Mode.read, 1, -1⟩
        [("INBOX", [("<a>", 10), ("<b>", 11)])]
        ⟨[("INBOX", [⟨10, "<a>", false⟩, ⟨11, "<b>", false⟩])], none⟩
        [⟨1, "Message-ID: <a>", true⟩, ⟨2, "Message-ID: <b>", true⟩]).visited = 2
    ∧ Ev.stored "INBOX" 10 true ∈ (syncPair ⟨Mode.read, 1, -1⟩
        [("INBOX", [("<a>", 10), ("<b>", 11)])]
        ⟨[("INBOX", [⟨10, "<a>", false⟩, ⟨11, "<b>", false⟩])], none⟩
        [⟨1, "Message-ID: <a>", true⟩, ⟨2, "Message-ID: <b>", true⟩]).events
    ∧ Ev.stored "INBOX" 11 true ∈ (syncPair ⟨Mode.read, 1, -1⟩
        [("INBOX", [("<a>", 10), ("<b>", 11)])]
        ⟨[("INBOX", [⟨10, "<a>", false⟩, ⟨11, "<b>", false⟩])], none⟩
        [⟨1, "Message-ID: <a>", true⟩, ⟨2, "Message-ID: <b>", true⟩]).events := by
  decide

/-! ## Claim C7 -/

/-- Claim C7 (code bug): with no mapping specification, `_get_mailboxes`
returns `('INBOX', 'INBOX')` whose destination component is the STRING
`'INBOX'` (line 273), not the list `['INBOX']` built by the mapping-file
branch.  `sync_read` then iterates `for m in mbox[1]` (line 98), which on
a string yields its characters, so the engine visits the five
destination "mailboxes" `I`, `N`, `B`, `O`, `X` — not one mailbox named
`INBOX`.  The mapping-file branch, by contrast, does produce a proper
one-element list for a one-field line. -/
theorem C7_default_destination_is_string :
    get_mailboxes none = [("INBOX", PyStrOrList.str "INBOX")]
    ∧ iterDest (PyStrOrList.str "INBOX") = ["I", "N", "B", "O", "X"]
    ∧ iterDest (PyStrOrList.list ["INBOX"]) = ["INBOX"]
    ∧ get_mailboxes (some ["Work"]) = [("Work", PyStrOrList.list ["Work"])] := by
  decide

/-! ## Claim C2 -/

lemma resolve_fst_mem {items : List (String × List (String × Nat))}
    {v : String} {m : String} {u : Nat}
    (h : resolve items v = some (m, u)) : m ∈ items.map Prod.fst := by
  induction items with
  | nil => cases h
  | cons p rest ih =>
    obtain ⟨m0, idx0⟩ := p
    unfold resolve at h
    cases hg : dictGet idx0 v with
    | some u0 =>
      rw [hg] at h
      injection h with h1
      injection h1 with h2 h3
      rw [← h2]
      exact List.mem_cons_self _ _
    | none =>
      rw [hg] at h
      exact List.mem_cons_of_mem _ (ih h)

/-- Claim C2, counterexample: the claim states that with caller priority
list `["A", "B"]` (both of whose indexes contain `<x>`), every run of the
engine picks `"A"`.  But the engine walks `dst_msgids_all.iteritems()`, a
Python-2 dict whose iteration order is arbitrary, modeled here as any
permutation of the inserted entries; for the iteration order
`[B-entry, A-entry]` the engine selects and stores in `"B"`.  So the
chosen mailbox is NOT determined by the priority list. -/
theorem C2_priority_counterexample :
    ¬ ∀ (items : List (String × List (String × Nat))),
        items.Perm [("A", [("<x>", 10)]), ("B", [("<x>", 20)])] →
        (syncPair ⟨Mode.read, -1, -1⟩ items
          ⟨[("A", [⟨10, "<x>", false⟩]), ("B", [⟨20, "<x>", false⟩])], none⟩
          [⟨1, "Message-ID: <x>", true⟩]).events =
          [Ev.selectDst "A", Ev.stored "A" 10 true] := by
  intro hclaim
  have h := hclaim [("B", [("<x>", 20)]), ("A", [("<x>", 10)])] (by decide)
  have hB : (syncPair ⟨Mode.read, -1, -1⟩
      [("B", [("<x>", 20)]), ("A", [("<x>", 10)])]
      ⟨[("A", [⟨10, "<x>", false⟩]), ("B", [⟨20, "<x>", false⟩])], none⟩
      [⟨1, "Message-ID: <x>", true⟩]).events =
      [Ev.selectDst "B", Ev.stored "B" 20 true] := by decide
  rw [hB] at h
  exact absurd h (by decide)

/-- Claim C2 as amended: the mailbox chosen by the for/else of lines
125-136 (and 177-188) is the first entry, in the ORDER THE DICT OF
INDEXES IS ACTUALLY ITERATED (an arbitrary permutation of the
destination entries, not necessarily the caller-supplied priority
order), whose index contains the message-ID. -/
theorem C2_first_in_iteration_order
    (pre : List (String × List (String × Nat))) (m : String)
    (idx : List (String × Nat)) (post : List (String × List (String × Nat)))
    (v : String) (u : Nat)
    (Hpre : ∀ p ∈ pre, dictGet p.2 v = none)
    (Hhit : dictGet idx v = some u) :
    resolve (pre ++ (m, idx) :: post) v = some (m, u) := by
  induction pre with
  | nil =>
    rw [List.nil_append]
    unfold resolve
    rw [Hhit]
  | cons p rest ih =>
    obtain ⟨m0, idx0⟩ := p
    have h0 : dictGet idx0 v = none := Hpre (m0, idx0) (List.mem_cons_self _ _)
    rw [List.cons_append]
    unfold resolve
    rw [h0]
    exact ih (fun q hq => Hpre q (List.mem_cons_of_mem _ hq))

/-- Witness for the amended C2: iteration order `[B-entry, A-entry]`, only
the A index contains `<x>`, so A is chosen even though it is iterated second. -/
theorem C2_first_in_iteration_order_witness :
    resolve [("B", [("<y>", 5)]), ("A", [("<x>", 10)])] "<x>" = some ("A", 10) := by
  exact C2_first_in_iteration_order [("B", [("<y>", 5)])] "A" [("<x>", 10)] []
    "<x>" 10 (by decide) (by decide)

/-! ## Claim C4 -/

lemma classify_malformed {cfg : Config} {items} {s : SrcMsg} {nm : String}
    (hmin : ¬(cfg.min_uid > 0 ∧ (s.uid : Int) < cfg.min_uid))
    (hp : get_header s.header = some (nm, ""))
    (hlow : pyLower nm = "message-id") :
    classify cfg items s = StepRes.skip false := by
  unfold classify
  rw [if_neg hmin, hp]
  simp [hlow]

lemma classify_raise_name {cfg : Config} {items} {s : SrcMsg} {nm v : String}
    (hmin : ¬(cfg.min_uid > 0 ∧ (s.uid : Int) < cfg.min_uid))
    (hp : get_header s.header = some (nm, v))
    (hlow : pyLower nm ≠ "message-id") :
    classify cfg items s = StepRes.raiseStep := by
  unfold classify
  rw [if_neg hmin, hp]
  simp [hlow]

lemma skipEvent_malformed {cfg : Config} {items} {s : SrcMsg} {nm : String}
    (hmin : ¬(cfg.min_uid > 0 ∧ (s.uid : Int) < cfg.min_uid))
    (hp : get_header s.header = some (nm, "")) :
    skipEvent cfg items s = Ev.malformed s.uid := by
  unfold skipEvent
  rw [if_neg hmin, hp]
  simp

/-- Claim C4, counterexample: a source message whose fetched header name is
not `Message-ID` (here `X-Priority`) does NOT make the engine log and
continue with the next message of the pair — line 118 raises, the
per-pair handler catches, and the pair is aborted: the following,
perfectly matched message `<a>` is never visited and never stored, and
the destination keeps its initial flags. -/
theorem C4_wrong_name_aborts_pair :
    (syncPair ⟨Mode.read, -1, -1⟩ [("INBOX", [("<a>", 11)])]
      ⟨[("INBOX", [⟨11, "<a>", false⟩])], none⟩
      [⟨1, "X-Priority: 1", true⟩, ⟨2, "Message-ID: <a>", true⟩]).raised = true
    ∧ (syncPair ⟨Mode.read, -1, -1⟩ [("INBOX", [("<a>", 11)])]
      ⟨[("INBOX", [⟨11, "<a>", false⟩])], none⟩
      [⟨1, "X-Priority: 1", true⟩, ⟨2, "Message-ID: <a>", true⟩]).events =
      [Ev.raisedInLoop]
    ∧ (syncPair ⟨Mode.read, -1, -1⟩ [("INBOX", [("<a>", 11)])]
      ⟨[("INBOX", [⟨11, "<a>", false⟩])], none⟩
      [⟨1, "X-Priority: 1", true⟩, ⟨2, "Message-ID: <a>", true⟩]).dst =
      ⟨[("INBOX", [⟨11, "<a>", false⟩])], none⟩ := by
  decide

/-- Claim C4 as amended: a message whose Message-ID value is empty is
logged as Malformed and skipped, issuing no store and letting the loop
continue with the rest of the pair; but a message whose fetched header
name is not case-insensitively `Message-ID` raises an exception that
aborts the current pair immediately (line 118) — it issues no store for
that message, and no later message of the pair is processed either. -/
theorem C4_malformed_semantics (cfg : Config)
    (items : List (String × List (String × Nat))) :
    (∀ (st : DestState) (i : Nat) (s : SrcMsg) (rest : List (Nat × SrcMsg))
        (nm : String),
      ¬(cfg.min_uid > 0 ∧ (s.uid : Int) < cfg.min_uid) →
      get_header s.header = some (nm, "") → pyLower nm = "message-id" →
      syncLoop cfg items st ((i, s) :: rest) =
        ⟨(syncLoop cfg items st rest).dst,
         Ev.malformed s.uid :: (syncLoop cfg items st rest).events,
         (syncLoop cfg items st rest).visited + 1,
         (syncLoop cfg items st rest).raised⟩)
    ∧ (∀ (st : DestState) (i : Nat) (s : SrcMsg) (rest : List (Nat × SrcMsg))
        (nm v : String),
      ¬(cfg.min_uid > 0 ∧ (s.uid : Int) < cfg.min_uid) →
      get_header s.header = some (nm, v) → pyLower nm ≠ "message-id" →
      syncLoop cfg items st ((i, s) :: rest) = ⟨st, [Ev.raisedInLoop], 1, true⟩) := by
  constructor
  · intro st i s rest nm hmin hp hlow
    rw [syncLoop_cons_skip (classify_malformed hmin hp hlow)]
    rw [skipEvent_malformed hmin hp]
  · intro st i s rest nm v hmin hp hlow
    exact syncLoop_cons_raise (classify_raise_name hmin hp hlow) st i rest

/-- Witness for the amended C4: a header block with an empty value is
skipped (no store, loop finishes normally), and a header block named
`X-Priority` aborts the pair. -/
theorem C4_malformed_semantics_witness :
    syncLoop ⟨Mode.read, -1, -1⟩ [] ⟨[], none⟩ [(0, ⟨7, "Message-ID:", true⟩)] =
      ⟨⟨[], none⟩, [Ev.malformed 7], 1, false⟩
    ∧ syncLoop ⟨Mode.read, -1, -1⟩ [] ⟨[], none⟩ [(0, ⟨8, "X-Priority: 1", true⟩)] =
      ⟨⟨[], none⟩, [Ev.raisedInLoop], 1, true⟩ := by
  constructor
  · have h := (C4_malformed_semantics ⟨Mode.read, -1, -1⟩ []).1 ⟨[], none⟩ 0
      ⟨7, "Message-ID:", true⟩ [] "Message-ID" (by decide) (by decide) (by decide)
    rw [h]
    decide
  · exact (C4_malformed_semantics ⟨Mode.read, -1, -1⟩ []).2 ⟨[], none⟩ 0
      ⟨8, "X-Priority: 1", true⟩ [] "X-Priority" "1" (by decide) (by decide)
      (by decide)

/-! ## Claim C8 -/

lemma dictGet_singleton {β : Type} (k : String) (b : β) (v : String) :
    dictGet [(k, b)] v = if k = v then some b else none := by
  unfold dictGet
  by_cases h : k = v
  · simp [List.find?, h]
  · have hb : (k == v) = false := by simp [h]
    simp [List.find?, hb, h]

lemma mem_searchMsgs {mode : Mode} {l : List SrcMsg} {t : SrcMsg} :
    t ∈ searchMsgs mode l ↔ t ∈ l ∧ t.seen = polarity mode := by
  unfold searchMsgs
  rw [List.mem_filter]
  simp

lemma wf_name_of_parse {t : SrcMsg} {nm v : String} (hwf : wfHeader t.header)
    (hp : get_header t.header = some (nm, v)) : pyLower nm = "message-id" := by
  rcases hwf with ⟨nm2, v2, hp2, hl2⟩
  rw [hp] at hp2
  injection hp2 with h3
  injection h3 with h4 h5
  rw [h4]
  exact hl2

/-- If every per-mailbox index is injective (no two distinct message-IDs
map to the same uid) and the iterated mailbox names are distinct, then
two message-IDs that resolve to the same `(mailbox, uid)` are equal. -/
lemma resolve_unique :
    ∀ (items : List (String × List (String × Nat))),
      (∀ p ∈ items, ∀ v v' u', dictGet p.2 v = some u' →
        dictGet p.2 v' = some u' → v = v') →
      (items.map Prod.fst).Nodup →
      ∀ {v v' : String} {m : String} {u : Nat},
        resolve items v = some (m, u) → resolve items v' = some (m, u) → v = v' := by
  intro items
  induction items with
  | nil =>
    intro _ _ v v' m u h1 _
    cases h1
  | cons p rest ih =>
    intro Hinj Hkeys v v' m u h1 h2
    obtain ⟨m0, idx0⟩ := p
    have Hnotin : m0 ∉ rest.map Prod.fst := (List.nodup_cons.1 Hkeys).1
    unfold resolve at h1 h2
    cases hg1 : dictGet idx0 v with
    | some u1 =>
      rw [hg1] at h1
      injection h1 with h1e
      injection h1e with hm1 hu1
      cases hg2 : dictGet idx0 v' with
      | some u2 =>
        rw [hg2] at h2
        injection h2 with h2e
        injection h2e with hm2 hu2
        exact Hinj (m0, idx0) (List.mem_cons_self _ _) v v' u
          (by rw [hg1, hu1]) (by rw [hg2, hu2])
      | none =>
        rw [hg2] at h2
        have hmem := resolve_fst_mem h2
        exact absurd (hm1 ▸ hmem) Hnotin
    | none =>
      rw [hg1] at h1
      cases hg2 : dictGet idx0 v' with
      | some u2 =>
        rw [hg2] at h2
        injection h2 with h2e
        injection h2e with hm2 hu2
        have hmem := resolve_fst_mem h1
        exact absurd (hm2 ▸ hmem) Hnotin
      | none =>
        rw [hg2] at h2
        exact ih (fun q hq => Hinj q (List.mem_cons_of_mem _ hq))
          (List.nodup_cons.1 Hkeys).2 h1 h2

/-- Claim C8, counterexample: source message `<a>` is seen, destination
message `<a>` (uid 10) is initially UNSEEN.  Running mode `read` flags it
seen; running mode `unread` right after searches the source for UNSEEN
messages, finds none, and touches nothing — so after the round trip the
destination message is seen, NOT restored to its pre-run unseen state. -/
theorem C8_round_trip_counterexample :
    (syncPair ⟨Mode.unread, -1, -1⟩ [("INBOX", [("<a>", 10)])]
      (syncPair ⟨Mode.read, -1, -1⟩ [("INBOX", [("<a>", 10)])]
        ⟨[("INBOX", [⟨10, "<a>", false⟩])], none⟩
        [⟨1, "Message-ID: <a>", true⟩]).dst
      [⟨1, "Message-ID: <a>", true⟩]).dst.boxes =
      [("INBOX", [⟨10, "<a>", true⟩])] := by
  decide

/-- Claim C8 as amended: running mode `read` and then mode `unread` on the
same pair leaves each matched destination message with the seen flag
equal to its SOURCE counterpart's seen state (seen if the source message
is seen, unseen if unseen) — not its own pre-run state.  The pre-run
destination state is restored only where it already agreed with the
source.  Hypotheses: limit and uid floor disabled, well-formed headers,
pairwise distinct source Message-IDs and injective per-mailbox indexes
with distinct iterated mailbox names (so that distinct messages cannot
write to the same destination slot). -/
theorem C8_round_trip_copies_source_state
    (limit min_uid : Int) (items : List (String × List (String × Nat)))
    (dst0 : DestState) (srcMsgs : List SrcMsg)
    (Hlim : limit ≤ 0) (Hmin : min_uid ≤ 0)
    (Hwf : ∀ t ∈ srcMsgs, wfHeader t.header)
    (Hinj : ∀ p ∈ items, ∀ v v' u', dictGet p.2 v = some u' →
      dictGet p.2 v' = some u' → v = v')
    (Hkeys : (items.map Prod.fst).Nodup)
    (Hdist : ∀ t ∈ srcMsgs, ∀ t' ∈ srcMsgs, ∀ nm nm' w,
      get_header t.header = some (nm, w) → get_header t'.header = some (nm', w) →
      t = t')
    (s : SrcMsg) (Hs : s ∈ srcMsgs) (nm v : String)
    (Hp : get_header s.header = some (nm, v)) (Hv : v ≠ "")
    (m : String) (u : Nat) (Hr : resolve items v = some (m, u)) :
    allSeenAt (syncPair ⟨Mode.unread, limit, min_uid⟩ items
        (syncPair ⟨Mode.read, limit, min_uid⟩ items dst0 srcMsgs).dst
        srcMsgs).dst m u s.seen := by
  have hminI : ¬(min_uid > 0 ∧ (s.uid : Int) < min_uid) := fun hcon =>
    absurd Hmin (not_le.2 hcon.1)
  have hlow : pyLower nm = "message-id" := wf_name_of_parse (Hwf s Hs) Hp
  cases hs : s.seen with
  | false =>
    unfold syncPair
    apply syncLoop_establish Hlim
    · intro x hx
      exact classify_not_raise (Hwf x.2 (mem_searchMsgs.1 (snd_mem_of_mem_enum _ hx)).1)
    · have HsU : s ∈ searchMsgs Mode.unread srcMsgs :=
        mem_searchMsgs.2 ⟨Hs, by rw [hs]; rfl⟩
      rcases mem_enum_of_mem _ HsU with ⟨i, hi⟩
      exact ⟨(i, s), hi, classify_store hminI Hp hlow Hv Hr⟩
  | true =>
    have hrun1 : allSeenAt
        (syncPair ⟨Mode.read, limit, min_uid⟩ items dst0 srcMsgs).dst m u true := by
      unfold syncPair
      apply syncLoop_establish Hlim
      · intro x hx
        exact classify_not_raise (Hwf x.2 (mem_searchMsgs.1 (snd_mem_of_mem_enum _ hx)).1)
      · have HsR : s ∈ searchMsgs Mode.read srcMsgs :=
          mem_searchMsgs.2 ⟨Hs, by rw [hs]; rfl⟩
        rcases mem_enum_of_mem _ HsR with ⟨i, hi⟩
        exact ⟨(i, s), hi, classify_store hminI Hp hlow Hv Hr⟩
    unfold syncPair
    apply syncLoop_preserve
    · exact hrun1
    · intro x hx hcx
      exfalso
      rcases classify_store_elim hcx with ⟨nm2, v2, hp2, hlow2, hv2, hr2⟩
      have hvv : v2 = v := resolve_unique items Hinj Hkeys hr2 Hr
      have hx2 : x.2 ∈ searchMsgs Mode.unread srcMsgs := snd_mem_of_mem_enum _ hx
      have hx2src : x.2 ∈ srcMsgs := (mem_searchMsgs.1 hx2).1
      have hxseen : x.2.seen = polarity Mode.unread := (mem_searchMsgs.1 hx2).2
      have hts : x.2 = s :=
        Hdist x.2 hx2src s Hs nm2 nm v (by rw [← hvv]; exact hp2) Hp
      rw [hts, hs] at hxseen
      simp [polarity] at hxseen

/-- Witness for the amended C8: a seen source message `<a>` matched at uid
10 of the destination INBOX (initially unseen): after read-then-unread
the destination message carries the seen flag of its source counterpart. -/
theorem C8_round_trip_copies_source_state_witness :
    allSeenAt (syncPair ⟨Mode.unread, -1, -1⟩ [("INBOX", [("<a>", 10)])]
        (syncPair ⟨Mode.read, -1, -1⟩ [("INBOX", [("<a>", 10)])]
          ⟨[("INBOX", [⟨10, "<a>", false⟩])], none⟩
          [⟨1, "Message-ID: <a>", true⟩]).dst
        [⟨1, "Message-ID: <a>", true⟩]).dst "INBOX" 10 true := by
  exact C8_round_trip_copies_source_state (-1) (-1) [("INBOX", [("<a>", 10)])]
    ⟨[("INBOX", [⟨10, "<a>", false⟩])], none⟩ [⟨1, "Message-ID: <a>", true⟩]
    (by decide) (by decide)
    (by
      intro t ht
      rw [List.mem_singleton.1 ht]
      exact ⟨"Message-ID", "<a>", by decide, by decide⟩)
    (by
      intro p hp v v' u' h1 h2
      have h1b : dictGet [(("<a>" : String), (10 : Nat))] v = some u' := by
        rw [List.mem_singleton.1 hp] at h1
        exact h1
      have h2b : dictGet [(("<a>" : String), (10 : Nat))] v' = some u' := by
        rw [List.mem_singleton.1 hp] at h2
        exact h2
      rw [dictGet_singleton] at h1b h2b
      by_cases hva : ("<a>" : String) = v
      · by_cases hvb : ("<a>" : String) = v'
        · rw [← hva, ← hvb]
        · rw [if_neg hvb] at h2b
          cases h2b
      · rw [if_neg hva] at h1b
        cases h1b)
    (by decide)
    (by
      intro t ht t' ht' nm nm' w h1 h2
      exact (List.mem_singleton.1 ht).trans (List.mem_singleton.1 ht').symm)
    ⟨1, "Message-ID: <a>", true⟩ (by decide)
    "Message-ID" "<a>" (by decide) (by decide)
    "INBOX" 10 (by decide)

/-! ## Claim C9 -/

lemma String_toList_mk (l : List Char) : (String.mk l).toList = l := rfl

lemma pySplitList_zero (sep : Char) (l : List Char) :
    pySplitList sep 0 l = [l] := by
  cases l <;> rfl

lemma pySplitList_nosep (sep : Char) :
    ∀ (l : List Char) (n : Nat), (∀ c ∈ l, c ≠ sep) →
      pySplitList sep n l = [l] := by
  intro l
  induction l with
  | nil =>
    intro n _
    cases n <;> rfl
  | cons c cs ih =>
    intro n h
    cases n with
    | zero => rfl
    | succ k =>
      have hc : c ≠ sep := h c (List.mem_cons_self _ _)
      simp only [pySplitList]
      rw [if_neg hc]
      rw [ih (k + 1) (fun d hd => h d (List.mem_cons_of_mem _ hd))]

lemma pySplitList_head (sep : Char) :
    ∀ (l1 : List Char) (n : Nat) (rest : List Char), (∀ c ∈ l1, c ≠ sep) →
      pySplitList sep (n + 1) (l1 ++ sep :: rest) =
        l1 :: pySplitList sep n rest := by
  intro l1
  induction l1 with
  | nil =>
    intro n rest _
    simp only [List.nil_append, pySplitList]
    simp
  | cons c cs ih =>
    intro n rest h
    have hc : c ≠ sep := h c (List.mem_cons_self _ _)
    rw [List.cons_append]
    simp only [pySplitList]
    rw [if_neg hc]
    rw [ih n rest (fun d hd => h d (List.mem_cons_of_mem _ hd))]

/-- Claim C9 as amended: `_get_header` splits on the first TWO colons
(`split(':', 2)`), not the first one.  The name is the stripped text
before the first colon; the value is the stripped text between the first
and the second colon — when the raw value contains a colon, everything
from that colon on is silently dropped.  A header block with no colon at
all makes `_get_header` fail (the uncaught `IndexError`, the
protocol-shape failure of the claim), which propagates out of the
Message-ID index builder. -/
theorem C9_header_split_on_first_two_colons
    (l1 l2 l3 : List Char)
    (h1 : ∀ c ∈ l1, c ≠ ':') (h2 : ∀ c ∈ l2, c ≠ ':') :
    get_header (String.mk (l1 ++ ':' :: l2)) =
      some (pyStrip (String.mk l1), pyStrip (String.mk l2))
    ∧ get_header (String.mk (l1 ++ ':' :: (l2 ++ ':' :: l3))) =
      some (pyStrip (String.mk l1), pyStrip (String.mk l2))
    ∧ get_header (String.mk l1) = none
    ∧ (∀ (descr : String) (rest : List FetchEntry) (acc : List (String × String)),
        get_message_ids_loop acc (FetchEntry.pair descr (String.mk l1) :: rest) =
          none) := by
  have hnone : get_header (String.mk l1) = none := by
    unfold get_header pySplit
    rw [String_toList_mk]
    rw [pySplitList_nosep ':' l1 2 h1]
    rfl
  refine ⟨?_, ?_, hnone, ?_⟩
  · unfold get_header pySplit
    rw [String_toList_mk]
    rw [show (2 : Nat) = 1 + 1 from rfl]
    rw [pySplitList_head ':' l1 1 l2 h1]
    rw [pySplitList_nosep ':' l2 1 h2]
    rfl
  · unfold get_header pySplit
    rw [String_toList_mk]
    rw [show (2 : Nat) = 1 + 1 from rfl]
    rw [pySplitList_head ':' l1 1 (l2 ++ ':' :: l3) h1]
    rw [show (1 : Nat) = 0 + 1 from rfl]
    rw [pySplitList_head ':' l2 0 l3 h2]
    rw [pySplitList_zero ':' l3]
    rfl
  · intro descr rest acc
    unfold get_message_ids_loop
    rw [hnone]

/-- Witness for the amended C9 on concrete character lists: name `A`,
raw value ` b` (one colon: value kept whole) and ` b:c` (second colon:
value truncated to ` b`); the colon-free block `A` alone fails and makes
the index builder fail. -/
theorem C9_header_split_on_first_two_colons_witness :
    get_header (String.mk (['A'] ++ ':' :: [' ', 'b'])) =
      some (pyStrip (String.mk ['A']), pyStrip (String.mk [' ', 'b']))
    ∧ get_header (String.mk (['A'] ++ ':' :: ([' ', 'b'] ++ ':' :: ['c']))) =
      some (pyStrip (String.mk ['A']), pyStrip (String.mk [' ', 'b']))
    ∧ get_header (String.mk ['A']) = none
    ∧ (∀ (descr : String) (rest : List FetchEntry) (acc : List (String × String)),
        get_message_ids_loop acc (FetchEntry.pair descr (String.mk ['A']) :: rest) =
          none) :=
  C9_header_split_on_first_two_colons ['A'] [' ', 'b'] ['c']
    (by decide) (by decide)

/-- Claim C9, counterexample: on the header block `Message-ID: <a:b>` the
source extracts value `<a` (text between the first two colons), not the
full remainder `<a:b>` that the claim describes; the index builder
therefore indexes the truncated key `<a`. -/
theorem C9_colon_in_value_truncated :
    get_header "Message-ID: <a:b>" = some ("Message-ID", "<a")
    ∧ get_header_asSpecified "Message-ID: <a:b>" = some ("Message-ID", "<a:b>")
    ∧ get_header "Message-ID: <a:b>" ≠ get_header_asSpecified "Message-ID: <a:b>"
    ∧ get_message_ids [FetchEntry.pair "1 (UID 11)" "Message-ID: <a:b>"] =
      some [("<a", "1")] := by
  decide

/-! ## The run-driver exception structure of `sync_read` (lines 91-154)

The per-pair loop of `sync_read` has this shape:

    try:                                   # outer try, line 91
        for mbox in mboxes:
            logger.info(...)               # pair begins
            src.select(mbox[0])            # line 94 — OUTSIDE the inner try
            try:                           # inner try, line 96
                ... index building, search, fetch, store ...
            except Exception as ex:
                logger.error(ex)           # line 147-148
            finally:
                _close(dst)                # line 150 — may itself raise
    except Exception as ex:
        logger.error(ex)                   # line 151-152
    finally:
        _disconnect(src, dst)              # line 154

and `_disconnect` (lines 309-312) is `src.logout()` followed, only if
the first call returns, by `dst.logout()`.  Whether each protocol
operation fails is abstracted into boolean fault parameters; the model
computes the event trace of a run. -/

/-- Events of one `sync_read` run at the driver level. -/
inductive REv
  | pairStart (n : Nat)
  | srcSelected (n : Nat)
  | pairDone (n : Nat)
  | pairError (n : Nat)
  | dstClosed (n : Nat)
  | runError
  | logoutSrc
  | logoutDst
deriving DecidableEq

/-- Fault injection for one mailbox pair: does `src.select(mbox[0])`
raise; does anything inside the inner try (index building, search,
fetch, store) raise; does `_close(dst)` raise. -/
structure PairFaults where
  selectSrcFails : Bool
  innerFails : Bool
  closeFails : Bool
deriving DecidableEq

/-- Fault injection for a whole run. -/
structure RunFaults where
  pairs : List PairFaults
  srcLogoutFails : Bool
deriving DecidableEq

/-- The inner try/except of lines 96-148: a failure inside it is caught
and logged at the pair level, a success completes the pair. -/
def innerEvent (n : Nat) (f : PairFaults) : REv :=
  if f.innerFails then REv.pairError n else REv.pairDone n

/-- The pair loop of lines 92-150.  A failure of `src.select` (line 94,
outside the inner try) or of `_close(dst)` (line 150, in the finally)
escapes the loop; the boolean of the result records whether an exception
escaped to the outer handler. -/
def runPairs : List (Nat × PairFaults) → List REv × Bool
  | [] => ([], false)
  | (n, f) :: rest =>
    if f.selectSrcFails then ([REv.pairStart n], true)
    else if f.closeFails then
      ([REv.pairStart n, REv.srcSelected n, innerEvent n f], true)
    else
      (REv.pairStart n :: REv.srcSelected n :: innerEvent n f ::
        REv.dstClosed n :: (runPairs rest).1, (runPairs rest).2)

/-- `_disconnect(src, dst)` (lines 309-312): `src.logout()` is attempted
first; `dst.logout()` runs only when that call returned normally —
the two calls are sequential, not nested. -/
def disconnectEvents (srcLogoutFails : Bool) : List REv :=
  REv.logoutSrc :: (if srcLogoutFails then [] else [REv.logoutDst])

/-- A whole `sync_read` run at the driver level: the pair loop, the
outer handler (logging an escaped exception), and the unconditional
`_disconnect` in the outer finally. -/
def sync_read_run (rf : RunFaults) : List REv :=
  (runPairs rf.pairs.enum).1
    ++ (if (runPairs rf.pairs.enum).2 then [REv.runError] else [])
    ++ disconnectEvents rf.srcLogoutFails

/-! ## Claim C5 -/

/-- Claim C5, counterexample: a failure while SELECTING THE SOURCE mailbox
of the first pair (line 94 sits outside the inner try of line 96) escapes
to the run-level handler: the second pair is never started, refuting
"aborts only that pair ... does not prevent processing of the subsequent
pairs".  Teardown does still run (the outer finally). -/
theorem C5_select_source_failure_aborts_run :
    REv.pairStart 1 ∉
      sync_read_run ⟨[⟨true, false, false⟩, ⟨false, false, false⟩], false⟩
    ∧ REv.runError ∈
      sync_read_run ⟨[⟨true, false, false⟩, ⟨false, false, false⟩], false⟩
    ∧ REv.logoutSrc ∈
      sync_read_run ⟨[⟨true, false, false⟩, ⟨false, false, false⟩], false⟩
    ∧ REv.logoutDst ∈
      sync_read_run ⟨[⟨true, false, false⟩, ⟨false, false, false⟩], false⟩ := by
  decide

lemma runPairs_start :
    ∀ (l : List PairFaults) (start : Nat),
      (∀ f ∈ l, f.selectSrcFails = false ∧ f.closeFails = false) →
      ∀ j, j < l.length →
        REv.pairStart (start + j) ∈ (runPairs (l.enumFrom start)).1 := by
  intro l
  induction l with
  | nil =>
    intro start _ j hj
    exact absurd hj (Nat.not_lt_zero j)
  | cons f fs ih =>
    intro start H j hj
    have h1 : f.selectSrcFails = false := (H f (List.mem_cons_self _ _)).1
    have h2 : f.closeFails = false := (H f (List.mem_cons_self _ _)).2
    show REv.pairStart (start + j) ∈
      (runPairs ((start, f) :: fs.enumFrom (start + 1))).1
    simp only [runPairs, h1, h2, Bool.false_eq_true, if_false]
    cases j with
    | zero =>
      rw [Nat.add_zero]
      exact List.mem_cons_self _ _
    | succ k =>
      have hk : k < fs.length := Nat.succ_lt_succ_iff.1 hj
      have hmem := ih (start + 1) (fun g hg => H g (List.mem_cons_of_mem _ hg)) k hk
      rw [show start + (k + 1) = start + 1 + k by omega]
      exact List.mem_cons_of_mem _ (List.mem_cons_of_mem _
        (List.mem_cons_of_mem _ (List.mem_cons_of_mem _ hmem)))

/-- Claim C5 as amended: a failure INSIDE the inner try — index building,
search, fetch or store — is caught and logged at the pair level and does
not prevent the later pairs from being processed, nor the teardown;
provided the source-mailbox selection and the destination-mailbox close
of every pair succeed.  (A failure of `src.select` or of `_close(dst)`
escapes to the run level instead and aborts all remaining pairs, though
teardown still runs — see the counterexample.) -/
theorem C5_inner_failures_contained (rf : RunFaults)
    (H : ∀ f ∈ rf.pairs, f.selectSrcFails = false ∧ f.closeFails = false) :
    (∀ n, n < rf.pairs.length → REv.pairStart n ∈ sync_read_run rf)
    ∧ REv.logoutSrc ∈ sync_read_run rf := by
  constructor
  · intro n hn
    unfold sync_read_run
    apply List.mem_append_left
    apply List.mem_append_left
    have := runPairs_start rf.pairs 0 H n hn
    rw [Nat.zero_add] at this
    exact this
  · unfold sync_read_run disconnectEvents
    apply List.mem_append_right
    exact List.mem_cons_self _ _

/-- Witness for the amended C5: pair 0 fails inside its inner try, yet
pair 1 is still started and the source logout still happens. -/
theorem C5_inner_failures_contained_witness :
    REv.pairStart 0 ∈
      sync_read_run ⟨[⟨false, true, false⟩, ⟨false, false, false⟩], false⟩
    ∧ REv.pairStart 1 ∈
      sync_read_run ⟨[⟨false, true, false⟩, ⟨false, false, false⟩], false⟩
    ∧ REv.logoutSrc ∈
      sync_read_run ⟨[⟨false, true, false⟩, ⟨false, false, false⟩], false⟩ := by
  refine ⟨?_, ?_, ?_⟩
  · exact (C5_inner_failures_contained
      ⟨[⟨false, true, false⟩, ⟨false, false, false⟩], false⟩ (by decide)).1 0 (by decide)
  · exact (C5_inner_failures_contained
      ⟨[⟨false, true, false⟩, ⟨false, false, false⟩], false⟩ (by decide)).1 1 (by decide)
  · exact (C5_inner_failures_contained
      ⟨[⟨false, true, false⟩, ⟨false, false, false⟩], false⟩ (by decide)).2

/-! ## Claim C6 -/

/-- Claim C6, counterexample: `_disconnect` (lines 309-312) runs
`src.logout()` and `dst.logout()` SEQUENTIALLY with no nesting, so when
the source logout raises, the destination logout is never attempted —
refuting "a failure logging out one account does not suppress logout of
the other account". -/
theorem C6_src_logout_failure_skips_dst_logout :
    REv.logoutSrc ∈ sync_read_run ⟨[⟨false, false, false⟩], true⟩
    ∧ REv.logoutDst ∉ sync_read_run ⟨[⟨false, false, false⟩], true⟩ := by
  decide

/-- Claim C6 as amended: on every exit path of a run — clean, per-pair
failure, source-select failure, or destination-close failure — the outer
finally attempts `src.logout()`; `dst.logout()` is attempted exactly when
the source logout returns normally.  The two logouts are sequential, not
nested, so a source-logout failure suppresses the destination logout
(see the counterexample); a destination-mailbox close failure does not
suppress either logout (it is caught by the run-level handler before the
finally). -/
theorem C6_teardown_always_attempted (rf : RunFaults) :
    REv.logoutSrc ∈ sync_read_run rf
    ∧ (rf.srcLogoutFails = false → REv.logoutDst ∈ sync_read_run rf) := by
  constructor
  · unfold sync_read_run disconnectEvents
    apply List.mem_append_right
    exact List.mem_cons_self _ _
  · intro h
    unfold sync_read_run disconnectEvents
    apply List.mem_append_right
    rw [h]
    exact List.mem_cons_of_mem _ (List.mem_cons_self _ _)

/-- Witness for the amended C6 at a run whose destination-close fails:
both logouts are still attempted. -/
theorem C6_teardown_always_attempted_witness :
    REv.logoutSrc ∈ sync_read_run ⟨[⟨false, false, true⟩], false⟩
    ∧ REv.logoutDst ∈ sync_read_run ⟨[⟨false, false, true⟩], false⟩ :=
  ⟨(C6_teardown_always_attempted ⟨[⟨false, false, true⟩], false⟩).1,
   (C6_teardown_always_attempted ⟨[⟨false, false, true⟩], false⟩).2 rfl⟩

/-! ## The placement engine (`move_msgs`, lines 157-206)

The loop walks `ref_msgids.iteritems()` (iteration sequence `refItems`,
order unspecified as for every Python-2 dict), resolves each reference
message-ID against the candidate indexes (`from_msgids_all.iteritems()`,
sequence `fromItems`), and on a match selects the owning mailbox, copies
the message to `toMbox` and stages a `'\\Deleted'` flag on it; the
matched-message counter drives the limit check of line 195.  The trace
of protocol operations is recorded as events. -/

/-- Events of one `move_msgs` run. -/
inductive MEv
  | selectFrom (m : String)
  | copied (uid : Nat) (dest : String)
  | deleted (uid : Nat)
  | unmatchedRef (mid : String)
  | limitReached
  | expunged
  | closedBox
deriving DecidableEq

/-- The reference loop of lines 176-200.  `i` is the matched-message
counter (`i = 0` before the loop, `i += 1` per match at line 194). -/
def moveLoop (limit : Int) (toMbox : String)
    (fromItems : List (String × List (String × Nat))) :
    Nat → List (String × Nat) → List MEv
  | _, [] => []
  | i, (mid, _refuid) :: rest =>
    match resolve fromItems mid with
    | none => MEv.unmatchedRef mid :: moveLoop limit toMbox fromItems i rest
    | some (m, fromUid) =>
      if limit > 0 ∧ ((i + 1 : Nat) : Int) ≥ limit then
        [MEv.selectFrom m, MEv.copied fromUid toMbox, MEv.deleted fromUid,
         MEv.limitReached]
      else
        MEv.selectFrom m :: MEv.copied fromUid toMbox :: MEv.deleted fromUid ::
          moveLoop limit toMbox fromItems (i + 1) rest

/-- `move_msgs` (lines 157-206): the reference loop followed by the single
`expunge` and `close` of lines 201-202. -/
def move_msgs (limit : Int) (toMbox : String)
    (fromItems : List (String × List (String × Nat)))
    (refItems : List (String × Nat)) : List MEv :=
  moveLoop limit toMbox fromItems 0 refItems ++ [MEv.expunged, MEv.closedBox]

/-- Safety predicate over a trace: walking the trace left to right while
collecting the uids copied into `dest`, every `deleted` event concerns a
uid that was copied into `dest` earlier in the trace. -/
def delSafe (dest : String) : List Nat → List MEv → Prop
  | _, [] => True
  | cs, MEv.copied u d :: rest =>
    delSafe dest (if d = dest then u :: cs else cs) rest
  | cs, MEv.deleted u :: rest => u ∈ cs ∧ delSafe dest cs rest
  | cs, MEv.selectFrom _ :: rest => delSafe dest cs rest
  | cs, MEv.unmatchedRef _ :: rest => delSafe dest cs rest
  | cs, MEv.limitReached :: rest => delSafe dest cs rest
  | cs, MEv.expunged :: rest => delSafe dest cs rest
  | cs, MEv.closedBox :: rest => delSafe dest cs rest

lemma moveLoop_cons_unmatched {fromItems : List (String × List (String × Nat))}
    {mid : String} (hr : resolve fromItems mid = none)
    (limit : Int) (toMbox : String) (i : Nat) (refuid : Nat)
    (rest : List (String × Nat)) :
    moveLoop limit toMbox fromItems i ((mid, refuid) :: rest) =
      MEv.unmatchedRef mid :: moveLoop limit toMbox fromItems i rest := by
  simp only [moveLoop]
  rw [hr]

lemma moveLoop_cons_matched_break {fromItems : List (String × List (String × Nat))}
    {mid m : String} {fromUid : Nat}
    (hr : resolve fromItems mid = some (m, fromUid))
    {limit : Int} {i : Nat}
    (hl : limit > 0 ∧ ((i + 1 : Nat) : Int) ≥ limit)
    (toMbox : String) (refuid : Nat) (rest : List (String × Nat)) :
    moveLoop limit toMbox fromItems i ((mid, refuid) :: rest) =
      [MEv.selectFrom m, MEv.copied fromUid toMbox, MEv.deleted fromUid,
       MEv.limitReached] := by
  simp only [moveLoop]
  rw [hr]
  simp only [if_pos hl]

lemma moveLoop_cons_matched_cont {fromItems : List (String × List (String × Nat))}
    {mid m : String} {fromUid : Nat}
    (hr : resolve fromItems mid = some (m, fromUid))
    {limit : Int} {i : Nat}
    (hl : ¬(limit > 0 ∧ ((i + 1 : Nat) : Int) ≥ limit))
    (toMbox : String) (refuid : Nat) (rest : List (String × Nat)) :
    moveLoop limit toMbox fromItems i ((mid, refuid) :: rest) =
      MEv.selectFrom m :: MEv.copied fromUid toMbox :: MEv.deleted fromUid ::
        moveLoop limit toMbox fromItems (i + 1) rest := by
  simp only [moveLoop]
  rw [hr]
  simp only [if_neg hl]

lemma moveLoop_delSafe (limit : Int) (toMbox : String)
    (fromItems : List (String × List (String × Nat))) :
    ∀ (refItems : List (String × Nat)) (i : Nat) (cs : List Nat),
      delSafe toMbox cs (moveLoop limit toMbox fromItems i refItems) := by
  intro refItems
  induction refItems with
  | nil =>
    intro i cs
    exact trivial
  | cons p rest ih =>
    intro i cs
    obtain ⟨mid, refuid⟩ := p
    cases hr : resolve fromItems mid with
    | none =>
      rw [moveLoop_cons_unmatched hr]
      simp only [delSafe]
      exact ih i cs
    | some mu =>
      obtain ⟨m, fromUid⟩ := mu
      by_cases hl : limit > 0 ∧ ((i + 1 : Nat) : Int) ≥ limit
      · rw [moveLoop_cons_matched_break hr hl]
        simp [delSafe]
      · rw [moveLoop_cons_matched_cont hr hl]
        simp only [delSafe, if_true]
        exact ⟨List.mem_cons_self _ _, ih (i + 1) (fromUid :: cs)⟩

lemma delSafe_append_tail (dest : String) :
    ∀ (l : List MEv) (cs : List Nat), delSafe dest cs l →
      delSafe dest cs (l ++ [MEv.expunged, MEv.closedBox]) := by
  intro l
  induction l with
  | nil =>
    intro cs _
    exact trivial
  | cons e rest ih =>
    intro cs h
    cases e with
    | copied u d =>
      exact ih _ h
    | deleted u =>
      exact ⟨h.1, ih cs h.2⟩
    | selectFrom m => exact ih cs h
    | unmatchedRef s => exact ih cs h
    | limitReached => exact ih cs h
    | expunged => exact ih cs h
    | closedBox => exact ih cs h

/-! ## Claim C10 -/

/-- Claim C10: in every `move_msgs` trace — for any limit, target mailbox,
candidate-index iteration order and reference-index iteration order —
every `'\\Deleted'` staging concerns a uid that was copied into the
target mailbox EARLIER in the trace: the copy of line 191 precedes the
delete-staging of line 192, and no message is ever staged for deletion
without first having been copied. -/
theorem C10_copy_precedes_delete (limit : Int) (toMbox : String)
    (fromItems : List (String × List (String × Nat)))
    (refItems : List (String × Nat)) :
    delSafe toMbox [] (move_msgs limit toMbox fromItems refItems) := by
  unfold move_msgs
  exact delSafe_append_tail toMbox _ []
    (moveLoop_delSafe limit toMbox fromItems refItems 0 [])
